import Mathlib

set_option maxRecDepth 10000

/-!
Shallow embedding of `src/Source.cpp` (the "FlappySGD" game loop).

Conventions of the embedding:
* C++ `double` / `float` scalars are modelled as `ℚ` with exact arithmetic
  (every constant of the program — 0.5, -8, 1, -1, 650, … — is an integer
  or a dyadic rational, and the properties of interest are arithmetic
  identities on these values).
* `SDL_Rect` (four C `int`s) is `Rect` with `ℤ` fields; the C truncating
  cast `(int)` on a `double` is `cint` (round toward zero).
* The member `SDL_Rect DestRect` of `GameObject` is default-initialised to
  an indeterminate value in C++ (the constructor leaves it uninitialised).
  We model it as `Option Rect`, `none` meaning "never assigned"; a read of
  an unassigned rectangle yields an arbitrary `Rect` parameter `u`
  (`readRect u none = u`), reflecting the indeterminate C++ value.
* The random draws `RandomInterval(Generator)` (uniform on [3,6]) and
  `RandomPos(Generator)` (uniform on [-150,150]) are inputs of the frame
  step (`dI`, `dP`), as is the keyboard snapshot (`upHeld`).
* `SDL_QueryTexture` on the player sprite sheet yields the texture width
  `W`, a run-wide constant parameter of the step.
* Rendering calls (`SDL_RenderCopy`, `SDL_RenderClear`, `SDL_RenderPresent`,
  the "You lose!" message) have no effect on simulation state and are not
  modelled beyond the state they mutate (`DestRect`, the animation
  counters `FrameTime` / `anim.x`).
-/

namespace SGD

/-- Componentwise pair of scalars; `pos_t = std::array<double, 2>` of the
source, with its componentwise `operator +`. -/
structure Vec2 where
  x : ℚ
  y : ℚ
deriving DecidableEq, Repr

instance : Add Vec2 := ⟨fun a b => ⟨a.x + b.x, a.y + b.y⟩⟩

/-- The `SDL_Rect` record: integer x, y, width, height. -/
structure Rect where
  x : ℤ
  y : ℤ
  w : ℤ
  h : ℤ
deriving DecidableEq, Repr

/-- The C cast `(int)` applied to a `double`: truncation toward zero. -/
def cint (q : ℚ) : ℤ := if 0 ≤ q then ⌊q⌋ else ⌈q⌉

/-- The class `GameObject` of the source. `Velocity` has the in-class
initialiser `{0,0}`; `DestRect` is left uninitialised by the constructor,
modelled as `none`. -/
structure GameObject where
  Position : Vec2
  Velocity : Vec2 := ⟨0, 0⟩
  Size : Vec2
  DestRect : Option Rect := none
deriving DecidableEq, Repr

def SCREEN_WIDTH : ℚ := 800
def SCREEN_HEIGHT : ℚ := 600

/-- `CheckCollision` of the source: axis-aligned bounding-box overlap with
the four early-return non-overlap tests. -/
def CheckCollision (a b : Rect) : Bool :=
  let leftA := a.x
  let rightA := a.x + a.w
  let topA := a.y
  let bottomA := a.y + a.h
  let leftB := b.x
  let rightB := b.x + b.w
  let topB := b.y
  let bottomB := b.y + b.h
  if bottomA ≤ topB then false
  else if topA ≥ bottomB then false
  else if rightA ≤ leftB then false
  else if leftA ≥ rightB then false
  else true

/-- `GetWall` of the source: builds a `GameObject` setting only `Position`,
`Velocity` and `Size` (the `DestRect` member stays unassigned). -/
def GetWall (Position Velocity Size : Vec2) : GameObject :=
  { Position := Position, Velocity := Velocity, Size := Size }

/-- Reading a possibly-unassigned `DestRect`: an unassigned rectangle reads
as the indeterminate value `u`. -/
def readRect (u : Rect) : Option Rect → Rect
  | none => u
  | some r => r

/-- The whole mutable loop state of `main`. -/
structure GameState where
  Player : GameObject
  GameTime : ℚ
  Interval : ℚ
  Walls : List GameObject
  GameLost : Bool
  FrameTime : ℤ
  animX : ℤ
deriving DecidableEq, Repr

/-- The constant `DeltaTime = 1 / 60.0` of the source. -/
def DeltaTime : ℚ := 1 / 60

/-- Top of the loop body: `GameTime += DeltaTime`, and when
`GameTime > Interval`, bump `Interval` by the drawn interval `dI`, draw the
shared vertical offset `dP` and append the two walls
`GetWall({832, 650+pos}, {-1,0}, {64,512})` and
`GetWall({832, -50+pos}, {-1,0}, {64,512})`. -/
def spawnPhase (dI dP : ℤ) (s : GameState) : GameState :=
  let gt := s.GameTime + DeltaTime
  if gt > s.Interval then
    { s with
      GameTime := gt
      Interval := s.Interval + (dI : ℚ)
      Walls := s.Walls ++
        [GetWall ⟨832, 650 + (dP : ℚ)⟩ ⟨-1, 0⟩ ⟨64, 512⟩,
         GetWall ⟨832, -50 + (dP : ℚ)⟩ ⟨-1, 0⟩ ⟨64, 512⟩] }
  else { s with GameTime := gt }

/-- Keyboard handling: when not lost and the up key is held,
`Player.Position[1]--` and `Player.Velocity[1] = -8`. -/
def inputPhase (upHeld : Bool) (s : GameState) : GameState :=
  if s.GameLost = false ∧ upHeld = true then
    { s with Player := { s.Player with
        Position := ⟨s.Player.Position.x, s.Player.Position.y - 1⟩
        Velocity := ⟨s.Player.Velocity.x, -8⟩ } }
  else s

/-- Integration: `Position = Position + Velocity` (with the pre-update
velocity), then `Velocity = Velocity + {0, 0.5}`. -/
def integratePhase (s : GameState) : GameState :=
  { s with Player := { s.Player with
      Position := s.Player.Position + s.Player.Velocity
      Velocity := s.Player.Velocity + ⟨0, 1/2⟩ } }

/-- The window-border check: if `Position[1] < -Size[1]/2` or
`Position[1] > SCREEN_HEIGHT + Size[1]/2` then `GameLost = true`. -/
def boundsPhase (s : GameState) : GameState :=
  if s.Player.Position.y < -s.Player.Size.y / 2 ∨
      s.Player.Position.y > SCREEN_HEIGHT + s.Player.Size.y / 2 then
    { s with GameLost := true }
  else s

/-- The body of `for (GameObject &wall : Walls)`: move each wall by its
velocity and test `CheckCollision(wall.DestRect, Player.DestRect)`,
accumulating whether any test fired. `pRect` is the player rectangle read
once per wall; `u` is the indeterminate value read from an unassigned
`DestRect`. -/
def wallLoop (u : Rect) (pRect : Rect) : List GameObject → List GameObject × Bool
  | [] => ([], false)
  | w :: ws =>
      let w2 := { w with Position := w.Position + w.Velocity }
      let hit := CheckCollision (readRect u w.DestRect) pRect
      let rest := wallLoop u pRect ws
      (w2 :: rest.1, hit || rest.2)

/-- Wall movement plus collision pass; a fired test sets `GameLost`. -/
def collidePhase (u : Rect) (s : GameState) : GameState :=
  let r := wallLoop u (readRect u s.Player.DestRect) s.Walls
  { s with
    Walls := r.1
    GameLost := s.GameLost || r.2 }

/-- The constant `FrameWidth = TextureWidth / 4` (C integer division of
nonnegative texture dimensions). -/
def FrameWidth (W : ℤ) : ℤ := W / 4

/-- The sprite-sheet animation counter update of the render phase:
`FrameTime++`, and on reaching 5 reset it and advance `anim.x` by
`FrameWidth`, wrapping to 0 once `anim.x >= TextureWidth`. The pair is
`(FrameTime, anim.x)`. -/
def animStep (W : ℤ) (p : ℤ × ℤ) : ℤ × ℤ :=
  let ft := p.1 + 1
  if ft = 5 then
    let x := p.2 + FrameWidth W
    (0, if x ≥ W then 0 else x)
  else (ft, p.2)

/-- The rectangle assigned in the render phase: integer box centred on the
floating-point position,
`{ (int)(Position[0] - Size[0]/2), (int)(Position[1] - Size[1]/2), (int)Size[0], (int)Size[1] }`. -/
def destRectOf (pos size : Vec2) : Rect :=
  ⟨cint (pos.x - size.x / 2), cint (pos.y - size.y / 2), cint size.x, cint size.y⟩

/-- Render phase: assign every wall's `DestRect` from its current position,
advance the animation counters, assign the player's `DestRect`. The blits
themselves carry no simulation state. -/
def renderPhase (W : ℤ) (s : GameState) : GameState :=
  let walls := s.Walls.map fun w =>
    { w with DestRect := some (destRectOf w.Position w.Size) }
  let a := animStep W (s.FrameTime, s.animX)
  { s with
    Walls := walls
    FrameTime := a.1
    animX := a.2
    Player := { s.Player with
      DestRect := some (destRectOf s.Player.Position s.Player.Size) } }

/-- The loop body up to (not including) the wall/collision pass: spawn
check, keyboard, integration, border check, in source order. -/
def preCollide (upHeld : Bool) (dI dP : ℤ) (s : GameState) : GameState :=
  boundsPhase (integratePhase (inputPhase upHeld (spawnPhase dI dP s)))

/-- One full iteration of the game loop. `W` is the queried texture width,
`u` the indeterminate value read from a not-yet-assigned `DestRect`,
`upHeld` the keyboard snapshot, `dI`/`dP` the two random draws (consumed
only on a spawn frame). -/
def step (W : ℤ) (u : Rect) (upHeld : Bool) (dI dP : ℤ) (s : GameState) : GameState :=
  renderPhase W (collidePhase u (preCollide upHeld dI dP s))

/-- The state right before the first loop iteration: player of size 32×32
at (SCREEN_WIDTH/4, SCREEN_HEIGHT/2), `GameTime = 0`, `Interval = 1`, no
walls, not lost, `FrameTime = 0`, `anim = {0, 0, FrameWidth, FrameHeight}`. -/
def initState : GameState :=
  { Player := { Position := ⟨SCREEN_WIDTH / 4, SCREEN_HEIGHT / 2⟩, Size := ⟨32, 32⟩ }
    GameTime := 0
    Interval := 1
    Walls := []
    GameLost := false
    FrameTime := 0
    animX := 0 }

/-- The run: iterate `step` from `initState` under an input stream `ins`
assigning to each frame the keyboard snapshot and the two random draws. -/
def run (W : ℤ) (u : Rect) (ins : ℕ → Bool × ℤ × ℤ) : ℕ → GameState
  | 0 => initState
  | n + 1 => step W u (ins n).1 (ins n).2.1 (ins n).2.2 (run W u ins n)

/-- Concrete state used to exercise a spawn frame: `GameTime = 2` already
exceeds `Interval = 1` after the per-frame increment. -/
def c1State : GameState := { initState with GameTime := 2 }

/-- Concrete lost state with one wall, used to exercise the frame step. -/
def c2State : GameState :=
  { initState with
    Walls := [GetWall ⟨100, 100⟩ ⟨-1, 0⟩ ⟨64, 512⟩]
    GameLost := true }

/-! ### Helper lemmas about the phases -/

theorem spawnPhase_Player (dI dP : ℤ) (s : GameState) :
    (spawnPhase dI dP s).Player = s.Player := by
  simp only [spawnPhase]
  split <;> rfl

theorem spawnPhase_GameLost (dI dP : ℤ) (s : GameState) :
    (spawnPhase dI dP s).GameLost = s.GameLost := by
  simp only [spawnPhase]
  split <;> rfl

theorem spawnPhase_Walls_spawn (dI dP : ℤ) (s : GameState)
    (h : s.GameTime + DeltaTime > s.Interval) :
    (spawnPhase dI dP s).Walls = s.Walls ++
      [GetWall ⟨832, 650 + (dP : ℚ)⟩ ⟨-1, 0⟩ ⟨64, 512⟩,
       GetWall ⟨832, -50 + (dP : ℚ)⟩ ⟨-1, 0⟩ ⟨64, 512⟩] := by
  simp only [spawnPhase, if_pos h]

theorem inputPhase_of_lost (b : Bool) (s : GameState) (h : s.GameLost = true) :
    inputPhase b s = s := by
  simp [inputPhase, h]

theorem wallLoop_fst_eq (u pRect : Rect) (ws : List GameObject) :
    (wallLoop u pRect ws).1 =
      ws.map fun w => { w with Position := w.Position + w.Velocity } := by
  induction ws with
  | nil => rfl
  | cons w ws ih => simp [wallLoop, ih]

theorem wallLoop_snd_eq (u pRect : Rect) (ws : List GameObject) :
    (wallLoop u pRect ws).2 =
      ws.any fun w => CheckCollision (readRect u w.DestRect) pRect := by
  induction ws with
  | nil => rfl
  | cons w ws ih => simp [wallLoop, ih]

theorem inputPhase_GameLost (b : Bool) (s : GameState) :
    (inputPhase b s).GameLost = s.GameLost := by
  simp only [inputPhase]
  split <;> rfl

theorem integratePhase_GameLost (s : GameState) :
    (integratePhase s).GameLost = s.GameLost := rfl

theorem boundsPhase_GameLost_of_lost (s : GameState) (h : s.GameLost = true) :
    (boundsPhase s).GameLost = true := by
  simp only [boundsPhase]
  split <;> simp [h]

theorem renderPhase_GameLost (W : ℤ) (s : GameState) :
    (renderPhase W s).GameLost = s.GameLost := rfl

theorem step_GameLost_eq (W : ℤ) (u : Rect) (b : Bool) (dI dP : ℤ) (s : GameState) :
    (step W u b dI dP s).GameLost =
      ((preCollide b dI dP s).GameLost ||
        (preCollide b dI dP s).Walls.any fun w =>
          CheckCollision (readRect u w.DestRect)
            (readRect u (preCollide b dI dP s).Player.DestRect)) := by
  simp only [step, renderPhase_GameLost, collidePhase, wallLoop_snd_eq]

theorem preCollide_GameLost_of_lost (b : Bool) (dI dP : ℤ) (s : GameState)
    (h : s.GameLost = true) :
    (preCollide b dI dP s).GameLost = true := by
  unfold preCollide
  apply boundsPhase_GameLost_of_lost
  rw [integratePhase_GameLost, inputPhase_GameLost, spawnPhase_GameLost]
  exact h

theorem step_lost_mono (W : ℤ) (u : Rect) (upHeld : Bool) (dI dP : ℤ)
    (s : GameState) (h : s.GameLost = true) :
    (step W u upHeld dI dP s).GameLost = true := by
  rw [step_GameLost_eq, preCollide_GameLost_of_lost upHeld dI dP s h, Bool.true_or]

theorem inputPhase_Player_Size (b : Bool) (s : GameState) :
    (inputPhase b s).Player.Size = s.Player.Size := by
  simp only [inputPhase]
  split <;> rfl

theorem inputPhase_Player_DestRect (b : Bool) (s : GameState) :
    (inputPhase b s).Player.DestRect = s.Player.DestRect := by
  simp only [inputPhase]
  split <;> rfl

theorem inputPhase_Walls (b : Bool) (s : GameState) :
    (inputPhase b s).Walls = s.Walls := by
  simp only [inputPhase]
  split <;> rfl

theorem integratePhase_Player_Size (s : GameState) :
    (integratePhase s).Player.Size = s.Player.Size := rfl

theorem boundsPhase_Player (s : GameState) :
    (boundsPhase s).Player = s.Player := by
  simp only [boundsPhase]
  split <;> rfl

theorem boundsPhase_Walls (s : GameState) :
    (boundsPhase s).Walls = s.Walls := by
  simp only [boundsPhase]
  split <;> rfl

theorem preCollide_Walls (b : Bool) (dI dP : ℤ) (s : GameState) :
    (preCollide b dI dP s).Walls = (spawnPhase dI dP s).Walls := by
  simp only [preCollide]
  rw [boundsPhase_Walls]
  show (inputPhase b (spawnPhase dI dP s)).Walls = _
  rw [inputPhase_Walls]

theorem preCollide_Player_DestRect (b : Bool) (dI dP : ℤ) (s : GameState) :
    (preCollide b dI dP s).Player.DestRect = s.Player.DestRect := by
  simp only [preCollide]
  rw [boundsPhase_Player]
  show (inputPhase b (spawnPhase dI dP s)).Player.DestRect = _
  rw [inputPhase_Player_DestRect, spawnPhase_Player]

theorem vec2_add_x (a b : Vec2) : (a + b).x = a.x + b.x := rfl

theorem vec2_add_y (a b : Vec2) : (a + b).y = a.y + b.y := rfl

theorem spawnPhase_Walls_noSpawn (dI dP : ℤ) (s : GameState)
    (h : ¬ s.GameTime + DeltaTime > s.Interval) :
    (spawnPhase dI dP s).Walls = s.Walls := by
  simp only [spawnPhase, if_neg h]

theorem spawnPhase_walls_velocity (dI dP : ℤ) (s : GameState)
    (hvel : ∀ w ∈ s.Walls, w.Velocity = ⟨-1, 0⟩) :
    ∀ w ∈ (spawnPhase dI dP s).Walls, w.Velocity = ⟨-1, 0⟩ := by
  by_cases hc : s.GameTime + DeltaTime > s.Interval
  · rw [spawnPhase_Walls_spawn dI dP s hc]
    intro w hw
    rcases List.mem_append.mp hw with h | h
    · exact hvel w h
    · fin_cases h <;> rfl
  · rw [spawnPhase_Walls_noSpawn dI dP s hc]
    exact hvel

theorem inputPhase_Player_x (b : Bool) (s : GameState) :
    (inputPhase b s).Player.Position.x = s.Player.Position.x ∧
    (inputPhase b s).Player.Velocity.x = s.Player.Velocity.x := by
  simp only [inputPhase]
  split <;> exact ⟨rfl, rfl⟩

theorem step_Player_PosVel (W : ℤ) (u : Rect) (b : Bool) (dI dP : ℤ) (s : GameState) :
    (step W u b dI dP s).Player.Position =
      (inputPhase b (spawnPhase dI dP s)).Player.Position +
      (inputPhase b (spawnPhase dI dP s)).Player.Velocity ∧
    (step W u b dI dP s).Player.Velocity =
      (inputPhase b (spawnPhase dI dP s)).Player.Velocity + ⟨0, 1/2⟩ := by
  have hb := boundsPhase_Player (integratePhase (inputPhase b (spawnPhase dI dP s)))
  constructor
  · show (boundsPhase (integratePhase (inputPhase b (spawnPhase dI dP s)))).Player.Position = _
    rw [hb]
    rfl
  · show (boundsPhase (integratePhase (inputPhase b (spawnPhase dI dP s)))).Player.Velocity = _
    rw [hb]
    rfl

theorem collidePhase_Walls (u : Rect) (s : GameState) :
    (collidePhase u s).Walls =
      s.Walls.map fun w => { w with Position := w.Position + w.Velocity } := by
  show (wallLoop u (readRect u s.Player.DestRect) s.Walls).1 = _
  exact wallLoop_fst_eq _ _ _

theorem renderPhase_Walls (W : ℤ) (s : GameState) :
    (renderPhase W s).Walls =
      s.Walls.map fun w => { w with DestRect := some (destRectOf w.Position w.Size) } := rfl

theorem step_Walls_eq (W : ℤ) (u : Rect) (b : Bool) (dI dP : ℤ) (s : GameState) :
    (step W u b dI dP s).Walls =
      ((spawnPhase dI dP s).Walls.map fun w =>
        { w with Position := w.Position + w.Velocity }).map fun w =>
        { w with DestRect := some (destRectOf w.Position w.Size) } := by
  show (renderPhase W (collidePhase u (preCollide b dI dP s))).Walls = _
  rw [renderPhase_Walls, collidePhase_Walls, preCollide_Walls]

theorem boundsPhase_FrameTime (s : GameState) :
    (boundsPhase s).FrameTime = s.FrameTime := by
  simp only [boundsPhase]
  split <;> rfl

theorem boundsPhase_animX (s : GameState) :
    (boundsPhase s).animX = s.animX := by
  simp only [boundsPhase]
  split <;> rfl

theorem inputPhase_FrameTime (b : Bool) (s : GameState) :
    (inputPhase b s).FrameTime = s.FrameTime := by
  simp only [inputPhase]
  split <;> rfl

theorem inputPhase_animX (b : Bool) (s : GameState) :
    (inputPhase b s).animX = s.animX := by
  simp only [inputPhase]
  split <;> rfl

theorem spawnPhase_FrameTime (dI dP : ℤ) (s : GameState) :
    (spawnPhase dI dP s).FrameTime = s.FrameTime := by
  simp only [spawnPhase]
  split <;> rfl

theorem spawnPhase_animX (dI dP : ℤ) (s : GameState) :
    (spawnPhase dI dP s).animX = s.animX := by
  simp only [spawnPhase]
  split <;> rfl

theorem preCollide_FrameTime (b : Bool) (dI dP : ℤ) (s : GameState) :
    (preCollide b dI dP s).FrameTime = s.FrameTime := by
  unfold preCollide
  rw [boundsPhase_FrameTime]
  show (inputPhase b (spawnPhase dI dP s)).FrameTime = _
  rw [inputPhase_FrameTime, spawnPhase_FrameTime]

theorem preCollide_animX (b : Bool) (dI dP : ℤ) (s : GameState) :
    (preCollide b dI dP s).animX = s.animX := by
  unfold preCollide
  rw [boundsPhase_animX]
  show (inputPhase b (spawnPhase dI dP s)).animX = _
  rw [inputPhase_animX, spawnPhase_animX]

theorem step_anim (W2 : ℤ) (u : Rect) (b : Bool) (dI dP : ℤ) (s : GameState) :
    ((step W2 u b dI dP s).FrameTime, (step W2 u b dI dP s).animX)
      = animStep W2 (s.FrameTime, s.animX) := by
  have hf := preCollide_FrameTime b dI dP s
  have ha := preCollide_animX b dI dP s
  show ((animStep W2 ((preCollide b dI dP s).FrameTime, (preCollide b dI dP s).animX)).1,
        (animStep W2 ((preCollide b dI dP s).FrameTime, (preCollide b dI dP s).animX)).2)
      = animStep W2 (s.FrameTime, s.animX)
  rw [hf, ha]

theorem anim_closed_form (W : ℤ) (hpos : 0 < W) (hdiv : W % 4 = 0) (n : ℕ) :
    (fun p => animStep W p)^[n] (0, 0) =
      ((n : ℤ) % 5, ((n : ℤ) / 5 % 4) * FrameWidth W) := by
  have hW4 : W = 4 * FrameWidth W := by
    unfold FrameWidth
    omega
  have hfw : 0 < FrameWidth W := by
    unfold FrameWidth
    omega
  induction n with
  | zero => simp
  | succ n ih =>
      rw [Function.iterate_succ_apply', ih]
      simp only [animStep]
      by_cases hc : ((n : ℤ) % 5) + 1 = 5
      · rw [if_pos hc]
        by_cases hx : ((n : ℤ) / 5 % 4) * FrameWidth W + FrameWidth W ≥ W
        · rw [if_pos hx]
          have hk : (n : ℤ) / 5 % 4 = 3 := by
            by_contra hk3
            have hkb : 0 ≤ (n : ℤ) / 5 % 4 ∧ (n : ℤ) / 5 % 4 < 3 := by omega
            have : ((n : ℤ) / 5 % 4 + 1) * FrameWidth W < 4 * FrameWidth W := by
              apply mul_lt_mul_of_pos_right _ hfw
              omega
            nlinarith
          refine Prod.ext ?_ ?_
          · show (0 : ℤ) = ((n + 1 : ℕ) : ℤ) % 5
            push_cast
            omega
          · show (0 : ℤ) = ((n + 1 : ℕ) : ℤ) / 5 % 4 * FrameWidth W
            have h0 : ((n + 1 : ℕ) : ℤ) / 5 % 4 = 0 := by
              push_cast
              omega
            rw [h0, zero_mul]
        · rw [if_neg hx]
          have hk : (n : ℤ) / 5 % 4 < 3 := by
            by_contra hk3
            have hk' : (n : ℤ) / 5 % 4 = 3 := by omega
            rw [hk'] at hx
            push_neg at hx
            nlinarith
          refine Prod.ext ?_ ?_
          · show (0 : ℤ) = ((n + 1 : ℕ) : ℤ) % 5
            push_cast
            omega
          · show (n : ℤ) / 5 % 4 * FrameWidth W + FrameWidth W
                = ((n + 1 : ℕ) : ℤ) / 5 % 4 * FrameWidth W
            have h1 : ((n + 1 : ℕ) : ℤ) / 5 % 4 = (n : ℤ) / 5 % 4 + 1 := by
              push_cast
              omega
            rw [h1]
            ring
      · rw [if_neg hc]
        refine Prod.ext ?_ ?_
        · show (n : ℤ) % 5 + 1 = ((n + 1 : ℕ) : ℤ) % 5
          push_cast
          omega
        · show (n : ℤ) / 5 % 4 * FrameWidth W = ((n + 1 : ℕ) : ℤ) / 5 % 4 * FrameWidth W
          have h1 : ((n + 1 : ℕ) : ℤ) / 5 % 4 = (n : ℤ) / 5 % 4 := by
            push_cast
            omega
          rw [h1]

/-! ### The claims -/

/-- Claim C5: `CheckCollision` returns `true` exactly when all four strict
side comparisons hold — `bottomA > topB`, `topA < bottomB`,
`rightA > leftB`, `leftA < rightB` (so rectangles that only touch at an
edge or corner do not collide), and the predicate is symmetric in its two
arguments. -/
theorem CheckCollision_characterization (a b : Rect) :
    (CheckCollision a b = true ↔
      (a.y + a.h > b.y ∧ a.y < b.y + b.h ∧ a.x + a.w > b.x ∧ a.x < b.x + b.w)) ∧
    CheckCollision a b = CheckCollision b a := by
  constructor
  · simp only [CheckCollision]
    split_ifs <;> simp_all
  · simp only [CheckCollision]
    split_ifs <;> simp_all

/-- Claim C1 as stated is false: the source appends the wall at
`650 + pos` first and the wall at `-50 + pos` second, so the second
appended wall's y minus the first appended wall's y is `-700`, not `700`.
Concretely, at a spawn frame (`GameTime = 2 > Interval = 1` after the
increment) with offset draw `0`, the walls appended are at y = 650 and
y = -50, and `-50 - 650 = -700 ≠ 700`. -/
theorem spawn_pair_diff_counterexample :
    c1State.GameTime + DeltaTime > c1State.Interval ∧
    (spawnPhase 3 0 c1State).Walls.map (fun w => w.Position.y) = [650, -50] ∧
    ¬ (((spawnPhase 3 0 c1State).Walls.map fun w => w.Position.y).getD 1 0 -
        ((spawnPhase 3 0 c1State).Walls.map fun w => w.Position.y).getD 0 0 = 700) := by
  refine ⟨by with_unfolding_all decide, by with_unfolding_all decide,
    by with_unfolding_all decide⟩

/-- Claim C1 (amended): every spawn event (a frame whose incremented
`GameTime` exceeds the current `Interval`) appends exactly two walls, both
at x = 832 with velocity (-1, 0) and size (64, 512), at vertical positions
`650 + offset` and `-50 + offset` for the one shared offset draw `dP`; the
second appended wall's y minus the first appended wall's y equals `-700`
(equivalently, first minus second is `700`). -/
theorem spawn_pair (dI dP : ℤ) (s : GameState)
    (h : s.GameTime + DeltaTime > s.Interval) :
    ∃ w1 w2 : GameObject,
      (spawnPhase dI dP s).Walls = s.Walls ++ [w1, w2] ∧
      w1.Position = ⟨832, 650 + (dP : ℚ)⟩ ∧
      w2.Position = ⟨832, -50 + (dP : ℚ)⟩ ∧
      w1.Velocity = ⟨-1, 0⟩ ∧ w2.Velocity = ⟨-1, 0⟩ ∧
      w1.Size = ⟨64, 512⟩ ∧ w2.Size = ⟨64, 512⟩ ∧
      w2.Position.y - w1.Position.y = -700 := by
  refine ⟨GetWall ⟨832, 650 + (dP : ℚ)⟩ ⟨-1, 0⟩ ⟨64, 512⟩,
    GetWall ⟨832, -50 + (dP : ℚ)⟩ ⟨-1, 0⟩ ⟨64, 512⟩,
    spawnPhase_Walls_spawn dI dP s h, rfl, rfl, rfl, rfl, rfl, rfl, ?_⟩
  show ((-50 : ℚ) + (dP : ℚ)) - (650 + (dP : ℚ)) = -700
  ring

/-- Witness for the amended C1 at a concrete spawn frame. -/
theorem spawn_pair_witness :
    ∃ w1 w2 : GameObject,
      (spawnPhase 3 0 c1State).Walls = c1State.Walls ++ [w1, w2] ∧
      w1.Position = ⟨832, 650 + ((0 : ℤ) : ℚ)⟩ ∧
      w2.Position = ⟨832, -50 + ((0 : ℤ) : ℚ)⟩ ∧
      w1.Velocity = ⟨-1, 0⟩ ∧ w2.Velocity = ⟨-1, 0⟩ ∧
      w1.Size = ⟨64, 512⟩ ∧ w2.Size = ⟨64, 512⟩ ∧
      w2.Position.y - w1.Position.y = -700 :=
  spawn_pair 3 0 c1State (by with_unfolding_all decide)

/-- Claim C7: when the up key is held and the player has not lost, the
keyboard phase decreases the vertical position by exactly 1 and sets the
vertical velocity to exactly -8 (horizontal components untouched); the
phase is a function of the current snapshot, so it re-fires on every frame
the key is held; when the player has lost, the keyboard phase changes
nothing; and within the frame the keyboard phase runs before integration. -/
theorem input_effect (s : GameState) (h : s.GameLost = false) :
    ((inputPhase true s).Player.Position.x = s.Player.Position.x ∧
     (inputPhase true s).Player.Position.y = s.Player.Position.y - 1 ∧
     (inputPhase true s).Player.Velocity.x = s.Player.Velocity.x ∧
     (inputPhase true s).Player.Velocity.y = -8) ∧
    (∀ s2 : GameState, s2.GameLost = true → ∀ b : Bool, inputPhase b s2 = s2) ∧
    (∀ W : ℤ, ∀ u : Rect, ∀ b : Bool, ∀ dI dP : ℤ,
      step W u b dI dP s =
        renderPhase W (collidePhase u
          (boundsPhase (integratePhase (inputPhase b (spawnPhase dI dP s)))))) := by
  refine ⟨?_, fun s2 h2 b => inputPhase_of_lost b s2 h2, fun _ _ _ _ _ => rfl⟩
  simp [inputPhase, h]

/-- Witness for C7 at the initial state (not lost, key held). -/
theorem input_effect_witness :
    ((inputPhase true initState).Player.Position.x = initState.Player.Position.x ∧
     (inputPhase true initState).Player.Position.y = initState.Player.Position.y - 1 ∧
     (inputPhase true initState).Player.Velocity.x = initState.Player.Velocity.x ∧
     (inputPhase true initState).Player.Velocity.y = -8) ∧
    (∀ s2 : GameState, s2.GameLost = true → ∀ b : Bool, inputPhase b s2 = s2) ∧
    (∀ W : ℤ, ∀ u : Rect, ∀ b : Bool, ∀ dI dP : ℤ,
      step W u b dI dP initState =
        renderPhase W (collidePhase u
          (boundsPhase (integratePhase (inputPhase b (spawnPhase dI dP initState)))))) :=
  input_effect initState rfl

/-- Claim C4: once `GameLost` is true it stays true across any further
frame, and while it is true the held up key has no effect: the frame step
with the key held produces exactly the same state as with the key
released. -/
theorem lost_is_permanent (W : ℤ) (u : Rect) (upHeld : Bool) (dI dP : ℤ)
    (s : GameState) (h : s.GameLost = true) :
    (step W u upHeld dI dP s).GameLost = true ∧
    step W u true dI dP s = step W u false dI dP s := by
  refine ⟨step_lost_mono W u upHeld dI dP s h, ?_⟩
  unfold step preCollide
  rw [inputPhase_of_lost true _ (by rw [spawnPhase_GameLost]; exact h),
    inputPhase_of_lost false _ (by rw [spawnPhase_GameLost]; exact h)]

/-- Claim C6: immediately after integration, the border check leaves
`GameLost` true exactly when it already was true or the player's vertical
position is strictly below -16 (= -Size.y/2 for the 32×32 player) or
strictly above 616 (= SCREEN_HEIGHT + Size.y/2); a position exactly on
either boundary does not trigger loss; and once true the flag survives any
further frame, whatever the vertical position does. -/
theorem bounds_check_exact (upHeld : Bool) (dI dP : ℤ) (s : GameState)
    (hsz : s.Player.Size = ⟨32, 32⟩) :
    ((preCollide upHeld dI dP s).GameLost = true ↔
      ((integratePhase (inputPhase upHeld (spawnPhase dI dP s))).GameLost = true ∨
       (integratePhase (inputPhase upHeld (spawnPhase dI dP s))).Player.Position.y < -16 ∨
       (integratePhase (inputPhase upHeld (spawnPhase dI dP s))).Player.Position.y > 616)) ∧
    ((integratePhase (inputPhase upHeld (spawnPhase dI dP s))).Player.Position.y = -16 ∨
      (integratePhase (inputPhase upHeld (spawnPhase dI dP s))).Player.Position.y = 616 →
      (preCollide upHeld dI dP s).GameLost =
        (integratePhase (inputPhase upHeld (spawnPhase dI dP s))).GameLost) ∧
    (∀ W : ℤ, ∀ u : Rect, ∀ s2 : GameState, s2.GameLost = true →
      (step W u upHeld dI dP s2).GameLost = true) := by
  have hts : (integratePhase (inputPhase upHeld (spawnPhase dI dP s))).Player.Size
      = ⟨32, 32⟩ := by
    rw [integratePhase_Player_Size, inputPhase_Player_Size, spawnPhase_Player]
    exact hsz
  have hlo : -(integratePhase (inputPhase upHeld (spawnPhase dI dP s))).Player.Size.y / 2
      = (-16 : ℚ) := by rw [hts]; norm_num
  have hhi : SCREEN_HEIGHT
      + (integratePhase (inputPhase upHeld (spawnPhase dI dP s))).Player.Size.y / 2
      = (616 : ℚ) := by rw [hts]; norm_num [SCREEN_HEIGHT]
  refine ⟨?_, ?_, fun W u s2 h2 => step_lost_mono W u upHeld dI dP s2 h2⟩
  · show (boundsPhase (integratePhase (inputPhase upHeld (spawnPhase dI dP s)))).GameLost
        = true ↔ _
    simp only [boundsPhase, hlo, hhi]
    split_ifs with hc
    · simp only [gt_iff_lt]
      tauto
    · push_neg at hc
      simp only [gt_iff_lt]
      constructor
      · exact Or.inl
      · rintro (h | h | h)
        · exact h
        · exact absurd h (not_lt.mpr hc.1)
        · exact absurd h (not_lt.mpr hc.2)
  · intro hy
    show (boundsPhase (integratePhase (inputPhase upHeld (spawnPhase dI dP s)))).GameLost = _
    simp only [boundsPhase, hlo, hhi]
    split_ifs with hc
    · rcases hy with hy | hy <;> rw [hy] at hc <;>
        rcases hc with hc | hc <;> norm_num at hc
    · rfl

/-- Witness for C6 at the initial state (player size 32×32). -/
theorem bounds_check_exact_witness :
    ((preCollide false 3 0 initState).GameLost = true ↔
      ((integratePhase (inputPhase false (spawnPhase 3 0 initState))).GameLost = true ∨
       (integratePhase (inputPhase false (spawnPhase 3 0 initState))).Player.Position.y < -16 ∨
       (integratePhase (inputPhase false (spawnPhase 3 0 initState))).Player.Position.y > 616)) ∧
    ((integratePhase (inputPhase false (spawnPhase 3 0 initState))).Player.Position.y = -16 ∨
      (integratePhase (inputPhase false (spawnPhase 3 0 initState))).Player.Position.y = 616 →
      (preCollide false 3 0 initState).GameLost =
        (integratePhase (inputPhase false (spawnPhase 3 0 initState))).GameLost) ∧
    (∀ W : ℤ, ∀ u : Rect, ∀ s2 : GameState, s2.GameLost = true →
      (step W u false 3 0 s2).GameLost = true) :=
  bounds_check_exact false 3 0 initState rfl

/-- Claim C2: on every frame, whatever the lost flag, integration updates
the player by `position += velocity` (with the pre-update velocity) then
`velocity += (0, 0.5)` — the flat 0.5 gravity is not scaled by the 1/60
delta — applied to the state the keyboard phase produced; in particular
after a loss (where the keyboard phase is inert) the law holds verbatim on
the frame-entry state; and every obstacle moves by exactly (-1, 0), its
constant velocity, with that velocity preserved forever. -/
theorem integration_law (W : ℤ) (u : Rect) (upHeld : Bool) (dI dP : ℤ) (s : GameState)
    (hvel : ∀ w ∈ s.Walls, w.Velocity = ⟨-1, 0⟩) :
    (∀ t : GameState,
      (integratePhase t).Player.Position = t.Player.Position + t.Player.Velocity ∧
      (integratePhase t).Player.Velocity = t.Player.Velocity + ⟨0, 1/2⟩) ∧
    ((step W u upHeld dI dP s).Player.Position =
      (inputPhase upHeld (spawnPhase dI dP s)).Player.Position +
      (inputPhase upHeld (spawnPhase dI dP s)).Player.Velocity) ∧
    ((step W u upHeld dI dP s).Player.Velocity =
      (inputPhase upHeld (spawnPhase dI dP s)).Player.Velocity + ⟨0, 1/2⟩) ∧
    (s.GameLost = true →
      (step W u upHeld dI dP s).Player.Position = s.Player.Position + s.Player.Velocity ∧
      (step W u upHeld dI dP s).Player.Velocity = s.Player.Velocity + ⟨0, 1/2⟩) ∧
    ((step W u upHeld dI dP s).Walls.map fun w => w.Position) =
      ((spawnPhase dI dP s).Walls.map fun w => w.Position + ⟨-1, 0⟩) ∧
    (∀ w ∈ (step W u upHeld dI dP s).Walls, w.Velocity = ⟨-1, 0⟩) := by
  have hstep := step_Player_PosVel W u upHeld dI dP s
  refine ⟨fun t => ⟨rfl, rfl⟩, hstep.1, hstep.2, ?_, ?_, ?_⟩
  · intro h
    have hni : inputPhase upHeld (spawnPhase dI dP s) = spawnPhase dI dP s :=
      inputPhase_of_lost upHeld _ (by rw [spawnPhase_GameLost]; exact h)
    rw [hstep.1, hstep.2, hni, spawnPhase_Player]
    exact ⟨rfl, rfl⟩
  · rw [step_Walls_eq, List.map_map, List.map_map]
    apply List.map_congr_left
    intro w hw
    show w.Position + w.Velocity = w.Position + ⟨-1, 0⟩
    rw [spawnPhase_walls_velocity dI dP s hvel w hw]
  · intro w hw
    rw [step_Walls_eq] at hw
    obtain ⟨w1, hw1, rfl⟩ := List.mem_map.mp hw
    obtain ⟨w0, hw0, rfl⟩ := List.mem_map.mp hw1
    show w0.Velocity = ⟨-1, 0⟩
    exact spawnPhase_walls_velocity dI dP s hvel w0 hw0

/-- Witness for C2 at a concrete lost state carrying one wall of velocity
(-1, 0). -/
theorem integration_law_witness :
    (∀ t : GameState,
      (integratePhase t).Player.Position = t.Player.Position + t.Player.Velocity ∧
      (integratePhase t).Player.Velocity = t.Player.Velocity + ⟨0, 1/2⟩) ∧
    ((step 64 ⟨0, 0, 0, 0⟩ true 3 0 c2State).Player.Position =
      (inputPhase true (spawnPhase 3 0 c2State)).Player.Position +
      (inputPhase true (spawnPhase 3 0 c2State)).Player.Velocity) ∧
    ((step 64 ⟨0, 0, 0, 0⟩ true 3 0 c2State).Player.Velocity =
      (inputPhase true (spawnPhase 3 0 c2State)).Player.Velocity + ⟨0, 1/2⟩) ∧
    (c2State.GameLost = true →
      (step 64 ⟨0, 0, 0, 0⟩ true 3 0 c2State).Player.Position =
        c2State.Player.Position + c2State.Player.Velocity ∧
      (step 64 ⟨0, 0, 0, 0⟩ true 3 0 c2State).Player.Velocity =
        c2State.Player.Velocity + ⟨0, 1/2⟩) ∧
    ((step 64 ⟨0, 0, 0, 0⟩ true 3 0 c2State).Walls.map fun w => w.Position) =
      ((spawnPhase 3 0 c2State).Walls.map fun w => w.Position + ⟨-1, 0⟩) ∧
    (∀ w ∈ (step 64 ⟨0, 0, 0, 0⟩ true 3 0 c2State).Walls, w.Velocity = ⟨-1, 0⟩) :=
  integration_law 64 ⟨0, 0, 0, 0⟩ true 3 0 c2State (by with_unfolding_all decide)

/-- Claim C10: the player's horizontal coordinates never change over the
whole run — on every reachable frame the horizontal position is still the
initial `SCREEN_WIDTH / 4 = 200` and the horizontal velocity is 0, for
every input stream. -/
theorem horizontal_never_changes (W : ℤ) (u : Rect) (ins : ℕ → Bool × ℤ × ℤ) (n : ℕ) :
    (run W u ins n).Player.Position.x = 200 ∧
    (run W u ins n).Player.Velocity.x = 0 := by
  induction n with
  | zero =>
      constructor
      · show SCREEN_WIDTH / 4 = 200
        norm_num [SCREEN_WIDTH]
      · rfl
  | succ n ih =>
      obtain ⟨hx, hv⟩ := ih
      have hs := step_Player_PosVel W u (ins n).1 (ins n).2.1 (ins n).2.2 (run W u ins n)
      have hix := inputPhase_Player_x (ins n).1
        (spawnPhase (ins n).2.1 (ins n).2.2 (run W u ins n))
      constructor
      · show (step W u (ins n).1 (ins n).2.1 (ins n).2.2
            (run W u ins n)).Player.Position.x = 200
        rw [hs.1, vec2_add_x, hix.1, hix.2, spawnPhase_Player, hx, hv, add_zero]
      · show (step W u (ins n).1 (ins n).2.1 (ins n).2.2
            (run W u ins n)).Player.Velocity.x = 0
        rw [hs.2, vec2_add_x, hix.2, spawnPhase_Player, hv]
        norm_num

/-- Witness for C4 at a concrete lost state with one wall. -/
theorem lost_is_permanent_witness :
    (step 64 ⟨0, 0, 0, 0⟩ true 3 0 c2State).GameLost = true ∧
    step 64 ⟨0, 0, 0, 0⟩ true 3 0 c2State = step 64 ⟨0, 0, 0, 0⟩ false 3 0 c2State :=
  lost_is_permanent 64 ⟨0, 0, 0, 0⟩ true 3 0 c2State rfl

/-- Claim C9: on the very frame a wall pair spawns, both new walls already
participate in the collision pass against the player, but `GetWall` never
assigns `DestRect`, so the rectangle read for each new wall in that frame
is the indeterminate unassigned value `u` — for every `u`, hence never a
box derived from the spawn position; the boxes are assigned only later, in
the render phase. -/
theorem fresh_wall_reads_uninitialized_rect (u : Rect) (upHeld : Bool) (dI dP : ℤ)
    (s : GameState) (h : s.GameTime + DeltaTime > s.Interval) :
    (∀ p v sz : Vec2, (GetWall p v sz).DestRect = none) ∧
    (preCollide upHeld dI dP s).Walls.length = s.Walls.length + 2 ∧
    ((preCollide upHeld dI dP s).Walls[s.Walls.length]?.map
      fun w => readRect u w.DestRect) = some u ∧
    ((preCollide upHeld dI dP s).Walls[s.Walls.length + 1]?.map
      fun w => readRect u w.DestRect) = some u ∧
    ((collidePhase u (preCollide upHeld dI dP s)).GameLost =
      ((preCollide upHeld dI dP s).GameLost ||
        (preCollide upHeld dI dP s).Walls.any fun w =>
          CheckCollision (readRect u w.DestRect)
            (readRect u (preCollide upHeld dI dP s).Player.DestRect))) := by
  have hw : (preCollide upHeld dI dP s).Walls = s.Walls ++
      [GetWall ⟨832, 650 + (dP : ℚ)⟩ ⟨-1, 0⟩ ⟨64, 512⟩,
       GetWall ⟨832, -50 + (dP : ℚ)⟩ ⟨-1, 0⟩ ⟨64, 512⟩] := by
    rw [preCollide_Walls, spawnPhase_Walls_spawn dI dP s h]
  refine ⟨fun p v sz => rfl, ?_, ?_, ?_, ?_⟩
  · rw [hw]
    simp
  · rw [hw, List.getElem?_append_right (le_refl _)]
    simp [GetWall, readRect]
  · rw [hw, List.getElem?_append_right (Nat.le_succ_of_le (le_refl _))]
    simp [GetWall, readRect]
  · simp only [collidePhase, wallLoop_snd_eq]

/-- Claim C3: the collision pass always compares the bounding boxes as the
previous frame's render phase assigned them. After any frame
(`s1 = step … s`) every wall's stored box is the box of its own position
of that frame and likewise for the player; in the following frame the
phases that precede the collision pass preserve the surviving walls (as a
prefix) and the player's stored box unchanged, and the frame's collision
outcome is the disjunction of `CheckCollision` over exactly those stored
boxes; the boxes derived from the current frame's positions are assigned
only afterwards, in the render phase. -/
theorem collision_reads_previous_render (W : ℤ) (u : Rect) (up1 : Bool) (dI1 dP1 : ℤ)
    (up2 : Bool) (dI2 dP2 : ℤ) (s : GameState) :
    ((step W u up1 dI1 dP1 s).Walls.map fun w => w.DestRect) =
      ((step W u up1 dI1 dP1 s).Walls.map fun w =>
        some (destRectOf w.Position w.Size)) ∧
    (step W u up1 dI1 dP1 s).Player.DestRect =
      some (destRectOf (step W u up1 dI1 dP1 s).Player.Position
        (step W u up1 dI1 dP1 s).Player.Size) ∧
    ((preCollide up2 dI2 dP2 (step W u up1 dI1 dP1 s)).Walls.take
        (step W u up1 dI1 dP1 s).Walls.length) = (step W u up1 dI1 dP1 s).Walls ∧
    (preCollide up2 dI2 dP2 (step W u up1 dI1 dP1 s)).Player.DestRect =
      (step W u up1 dI1 dP1 s).Player.DestRect ∧
    ((step W u up2 dI2 dP2 (step W u up1 dI1 dP1 s)).GameLost =
      ((preCollide up2 dI2 dP2 (step W u up1 dI1 dP1 s)).GameLost ||
        (preCollide up2 dI2 dP2 (step W u up1 dI1 dP1 s)).Walls.any fun w =>
          CheckCollision (readRect u w.DestRect)
            (readRect u (step W u up1 dI1 dP1 s).Player.DestRect))) := by
  refine ⟨?_, rfl, ?_, preCollide_Player_DestRect up2 dI2 dP2 _, ?_⟩
  · apply List.map_congr_left
    intro w hw
    rw [step_Walls_eq] at hw
    obtain ⟨w1, hw1, rfl⟩ := List.mem_map.mp hw
    rfl
  · rw [preCollide_Walls]
    by_cases hc : (step W u up1 dI1 dP1 s).GameTime + DeltaTime
        > (step W u up1 dI1 dP1 s).Interval
    · rw [spawnPhase_Walls_spawn _ _ _ hc]
      simp [List.take_append]
    · rw [spawnPhase_Walls_noSpawn _ _ _ hc, List.take_length]
  · rw [step_GameLost_eq, preCollide_Player_DestRect]

/-- Witness for C9 at a concrete spawn frame with no pre-existing walls. -/
theorem fresh_wall_reads_uninitialized_rect_witness :
    (∀ p v sz : Vec2, (GetWall p v sz).DestRect = none) ∧
    (preCollide false 3 0 c1State).Walls.length = c1State.Walls.length + 2 ∧
    ((preCollide false 3 0 c1State).Walls[c1State.Walls.length]?.map
      fun w => readRect ⟨7, 8, 9, 10⟩ w.DestRect) = some ⟨7, 8, 9, 10⟩ ∧
    ((preCollide false 3 0 c1State).Walls[c1State.Walls.length + 1]?.map
      fun w => readRect ⟨7, 8, 9, 10⟩ w.DestRect) = some ⟨7, 8, 9, 10⟩ ∧
    ((collidePhase ⟨7, 8, 9, 10⟩ (preCollide false 3 0 c1State)).GameLost =
      ((preCollide false 3 0 c1State).GameLost ||
        (preCollide false 3 0 c1State).Walls.any fun w =>
          CheckCollision (readRect ⟨7, 8, 9, 10⟩ w.DestRect)
            (readRect ⟨7, 8, 9, 10⟩ (preCollide false 3 0 c1State).Player.DestRect))) :=
  fresh_wall_reads_uninitialized_rect ⟨7, 8, 9, 10⟩ false 3 0 c1State
    (by with_unfolding_all decide)

/-- Claim C8: the sprite-sheet offset advances exactly once every 5
rendered frames and, for a sheet width `W` that is a positive multiple of
4 (the program's 4-frame sheet), cycles through exactly the 4 positions
0, FrameWidth, 2·FrameWidth, 3·FrameWidth (`FrameWidth = W / 4` by integer
division), wrapping to 0 when it would reach the full width: after n
rendered frames the counters equal `(n mod 5, (n / 5 mod 4) · FrameWidth)`.
Every frame of the loop feeds the counters through exactly one `animStep`. -/
theorem anim_cycle (W : ℤ) (hpos : 0 < W) (hdiv : W % 4 = 0) :
    (∀ n : ℕ, (fun p => animStep W p)^[n] (0, 0) =
      ((n : ℤ) % 5, ((n : ℤ) / 5 % 4) * FrameWidth W)) ∧
    (∀ (W2 : ℤ) (u : Rect) (b : Bool) (dI dP : ℤ) (s : GameState),
      ((step W2 u b dI dP s).FrameTime, (step W2 u b dI dP s).animX)
        = animStep W2 (s.FrameTime, s.animX)) :=
  ⟨anim_closed_form W hpos hdiv, step_anim⟩

/-- Witness for C8 on a sheet of width 8. -/
theorem anim_cycle_witness :
    (∀ n : ℕ, (fun p => animStep 8 p)^[n] (0, 0) =
      ((n : ℤ) % 5, ((n : ℤ) / 5 % 4) * FrameWidth 8)) ∧
    (∀ (W2 : ℤ) (u : Rect) (b : Bool) (dI dP : ℤ) (s : GameState),
      ((step W2 u b dI dP s).FrameTime, (step W2 u b dI dP s).animX)
        = animStep W2 (s.FrameTime, s.animX)) :=
  anim_cycle 8 (by decide) (by decide)

end SGD
